import Mathlib

/-!
Verification of the gokit sharded byte-cache core: the record codec
(`cache/bigcache` encoding), the FIFO byte queue
(`container/bytesqyeye/bytes_queue.go`) and the cache shard
(`cache/bigcache/shard.go`), shallowly embedded over `List Nat` byte
arrays (each byte a `Nat < 256` where written; machine integers are `Nat`
with explicit `% 2 ^ w` where overflow matters).
-/

namespace Gokit

/-! ## Byte-level primitives (encoding/binary, little endian) -/

/-- Byte at index `i` of a byte slice; out-of-range reads give `0`
(Go would panic there; all verified uses stay in range). -/
def byteAt (data : List Nat) (i : Nat) : Nat := data.getD i 0

/-- Go `binary.LittleEndian.PutUintNN`: the `k` little-endian base-256 digits
of `x` (so the value actually stored is `x % 256 ^ k`). -/
def leBytes : Nat → Nat → List Nat
  | 0, _ => []
  | k + 1, x => x % 256 :: leBytes k (x / 256)

/-- Go `binary.LittleEndian.UintNN`: reassemble `k` little-endian bytes. -/
def readLE : Nat → List Nat → Nat
  | 0, _ => 0
  | k + 1, data => byteAt data 0 + 256 * readLE k (data.drop 1)

/-- Overwrite `arr` at position `pos` with `data`, truncated at the end of
`arr` (the semantics of Go `copy(arr[pos:], data)`); the number of bytes
written is `min data.length (arr.length - pos)`. -/
def writeAt (arr : List Nat) (pos : Nat) (data : List Nat) : List Nat :=
  arr.take pos ++ data.take (arr.length - pos) ++ arr.drop (pos + data.length)

/-! ## Record codec (cache/bigcache encoding: wrapEntry / read* functions)

Layout of a wrapped entry: `[timestamp 8B LE][hash 8B LE][keyLen 2B LE][key][value]`;
`headersSizeInBytes = 18`. -/

def timestampSizeInBytes : Nat := 8
def hashSizeInBytes : Nat := 8
def keySizeInBytes : Nat := 2
def headersSizeInBytes : Nat := timestampSizeInBytes + hashSizeInBytes + keySizeInBytes

/-- Go `wrapEntry(timestamp, hash, key, entry, buffer)`: every byte of the
result is freshly written, so the scratch buffer argument of the Go code
drops out and the function is pure.  The key length is stored as
`uint16(len(key))`, i.e. `% 2 ^ 16` (the `% 256` digits of `leBytes 2`). -/
def wrapEntry (timestamp hash : Nat) (key entry : List Nat) : List Nat :=
  leBytes 8 timestamp ++ leBytes 8 hash ++ leBytes 2 key.length ++ key ++ entry

/-- Go `readTimestampFromEntry`: first 8 bytes, little endian. -/
def readTimestampFromEntry (data : List Nat) : Nat := readLE 8 data

/-- Go `readHashFromEntry`: 8 bytes at offset 8, little endian. -/
def readHashFromEntry (data : List Nat) : Nat := readLE 8 (data.drop 8)

/-- Go `readKeyFromEntry`: reads the stored 2-byte key length, then copies
that many bytes starting at offset 18. -/
def readKeyFromEntry (data : List Nat) : List Nat :=
  let length := readLE 2 (data.drop 16)
  (data.drop 18).take length

/-- Go `compareKeyFromEntry(data, key)`: compares the embedded key region
against `key` without copying. -/
def compareKeyFromEntry (data : List Nat) (key : List Nat) : Bool :=
  let length := readLE 2 (data.drop 16)
  (data.drop 18).take length == key

/-- Go `readEntry`: the value bytes after the key.  In the Go source the
offset `headersSizeInBytes + length` is computed in `uint16` arithmetic
(`length` is a `uint16` and the untyped constant 18 converts to it), so it
wraps `% 2 ^ 16`. -/
def readEntry (data : List Nat) : List Nat :=
  let length := readLE 2 (data.drop 16)
  data.drop ((headersSizeInBytes + length) % 65536)

/-- Go `resetHashFromEntry`: overwrite the 8-byte hash field (offset 8) with 0
in place. -/
def resetHashFromEntry (data : List Nat) : List Nat :=
  writeAt data 8 (leBytes 8 0)


/-! ## BytesQueue (container/bytesqyeye/bytes_queue.go)

A FIFO ring buffer over one byte arena.  `leftMarginIndex = 1`: offset 0 is
the "absent" sentinel.  The `headerBuffer` scratch field and the `verbose`
flag (logging only) are omitted; `time.Now` profiling in
`allocateAdditionalMemory` is a pure side channel and drops out. -/

def minimumHeaderSize : Nat := 17
def leftMarginIndex : Nat := 1

/-- Errors of the byte queue (`errEmptyQueue`, `errInvalidIndex`,
`errIndexOutOfBounds`, `errFullQueue`). -/
inductive QErr where
  | emptyQueue
  | invalidIndex
  | indexOutOfBounds
  | fullQueue
deriving DecidableEq

structure BytesQueue where
  full : Bool
  array : List Nat
  capacity : Nat
  maxCapacity : Nat
  head : Nat
  tail : Nat
  count : Nat
  rightMargin : Nat
deriving DecidableEq

/-- Go `getNeededSize(length)`: uvarint header size for the block plus the
payload length. -/
def getNeededSize (length : Nat) : Nat :=
  let header :=
    if length < 127 then 1
    else if length < 16382 then 2
    else if length < 2097149 then 3
    else if length < 268435452 then 4
    else 5
  header + length

/-- Go `binary.PutUvarint` digit list (little-endian base 128, continuation
bit 0x80).  The fuel of 9 covers every `uint64` value (10 bytes); Go's
argument type is `uint64`, so behaviour beyond `2 ^ 70` is irrelevant. -/
def putUvarintAux : Nat → Nat → List Nat
  | 0, x => [x % 256]
  | f + 1, x => if x < 128 then [x] else (x % 128 + 128) :: putUvarintAux f (x / 128)

def putUvarint (x : Nat) : List Nat := putUvarintAux 9 x

/-- Go `binary.Uvarint`: decode a uvarint prefix, returning the value and the
number of bytes consumed (`(0, 0)` when the buffer ends mid-varint). -/
def uvarint : List Nat → Nat × Nat
  | [] => (0, 0)
  | b :: rest =>
    if b % 256 < 128 then (b % 256, 1)
    else
      let r := uvarint rest
      if r.2 = 0 then (0, 0) else (b % 256 % 128 + r.1 * 128, r.2 + 1)

/-- Go `NewBytesQueue(capacity, maxCapacity, verbose)`. -/
def NewBytesQueue (capacity maxCapacity : Nat) : BytesQueue :=
  { full := false
    array := List.replicate capacity 0
    capacity := capacity
    maxCapacity := maxCapacity
    head := leftMarginIndex
    tail := leftMarginIndex
    count := 0
    rightMargin := leftMarginIndex }

/-- Go `(q *BytesQueue) Reset()`: just reset indexes. -/
def BytesQueue.Reset (q : BytesQueue) : BytesQueue :=
  { q with
    tail := leftMarginIndex
    head := leftMarginIndex
    rightMargin := leftMarginIndex
    count := 0
    full := false }

/-- Go `(q *BytesQueue) copy(data, len)`: `q.tail += copy(q.array[q.tail:], data[:len])`. -/
def BytesQueue.qcopy (q : BytesQueue) (data : List Nat) (l : Nat) : BytesQueue :=
  let src := data.take l
  { q with
    array := writeAt q.array q.tail src
    tail := q.tail + min src.length (q.array.length - q.tail) }

/-- Go `(q *BytesQueue) push(data, len)`: write uvarint header then payload at
`tail`, update `rightMargin`/`full`, bump `count`. -/
def BytesQueue.pushData (q : BytesQueue) (data : List Nat) (l : Nat) : BytesQueue :=
  let header := putUvarint l
  let q1 := q.qcopy header header.length
  let q2 := q1.qcopy data (l - header.length)
  let q3 := if q2.head < q2.tail then { q2 with rightMargin := q2.tail } else q2
  let q4 := if q2.tail = q2.head then { q3 with full := true } else q3
  { q4 with count := q4.count + 1 }

/-- Go `canInsertAfterTail(need)`. -/
def BytesQueue.canInsertAfterTail (q : BytesQueue) (need : Nat) : Bool :=
  if q.full then false
  else if q.head ≤ q.tail then q.capacity - q.tail ≥ need
  else q.head - q.tail = need || q.head - q.tail ≥ need + minimumHeaderSize

/-- Go `canInsertBeforeHead(need)`. -/
def BytesQueue.canInsertBeforeHead (q : BytesQueue) (need : Nat) : Bool :=
  if q.full then false
  else if q.head ≤ q.tail then
    q.head - leftMarginIndex = need || q.head - leftMarginIndex ≥ need + minimumHeaderSize
  else q.head - q.tail = need || q.head - q.tail ≥ need + minimumHeaderSize

/-- Go `allocateAdditionalMemory(minimum)`: at-least-doubling growth capped at
`maxCapacity`, copy `[0, rightMargin)`, re-linearize a wrapped window with
a filler block, clear `full`. -/
def BytesQueue.allocateAdditionalMemory (q : BytesQueue) (minimum : Nat) : BytesQueue :=
  let cap1 := if q.capacity < minimum then q.capacity + minimum else q.capacity
  let cap2 := cap1 * 2
  let cap3 := if 0 < q.maxCapacity ∧ q.maxCapacity < cap2 then q.maxCapacity else cap2
  let oldArray := q.array
  let q1 := { q with capacity := cap3, array := List.replicate cap3 0 }
  let q2 :=
    if leftMarginIndex ≠ q1.rightMargin then
      let qa := { q1 with array := writeAt q1.array 0 (oldArray.take q1.rightMargin) }
      if qa.tail ≤ qa.head then
        let qb :=
          if qa.tail ≠ qa.head then
            qa.pushData (List.replicate (qa.head - qa.tail) 0) (qa.head - qa.tail)
          else qa
        { qb with head := leftMarginIndex, tail := qb.rightMargin }
      else qa
    else q1
  { q2 with full := false }

/-- Go `(q *BytesQueue) Push(entry) (int, error)`: try after `tail`, then
before `head` (wrapping `tail` to the left margin), then grow, else
`errFullQueue`.  Returns the state, the index (`-1` on failure) and the
error. -/
def BytesQueue.Push (q : BytesQueue) (entry : List Nat) : BytesQueue × Int × Option QErr :=
  let neededSize := getNeededSize entry.length
  if q.canInsertAfterTail neededSize then
    (q.pushData entry neededSize, (q.tail : Int), none)
  else if q.canInsertBeforeHead neededSize then
    let q1 := { q with tail := leftMarginIndex }
    (q1.pushData entry neededSize, (q1.tail : Int), none)
  else if q.capacity + neededSize ≥ q.maxCapacity ∧ 0 < q.maxCapacity then
    (q, -1, some QErr.fullQueue)
  else
    let q1 := q.allocateAdditionalMemory neededSize
    (q1.pushData entry neededSize, (q1.tail : Int), none)

/-- Go `peekCheckErr(index)`. -/
def BytesQueue.peekCheckErr (q : BytesQueue) (index : Nat) : Option QErr :=
  if q.count = 0 then some QErr.emptyQueue
  else if index = 0 then some QErr.invalidIndex
  else if q.array.length ≤ index then some QErr.indexOutOfBounds
  else none

/-- Go `peek(index)`: block payload (between header and `blockSize`) and the
total block size. -/
def BytesQueue.peek (q : BytesQueue) (index : Nat) : Except QErr (List Nat × Nat) :=
  match q.peekCheckErr index with
  | some e => .error e
  | none =>
    let r := uvarint (q.array.drop index)
    .ok (((q.array.drop (index + r.2)).take (r.1 - r.2)), r.1)

/-- Go `Pop()`: read at `head`, advance `head`, decrement `count`; when `head`
hits `rightMargin` reset `head` (and `tail`, when it also sits at
`rightMargin`) to the left margin and pull `rightMargin` back to `tail`;
clear `full`. -/
def BytesQueue.Pop (q : BytesQueue) : Except QErr (List Nat × BytesQueue) :=
  match q.peek q.head with
  | .error e => .error e
  | .ok (data, blockSize) =>
    let q1 := { q with head := q.head + blockSize, count := q.count - 1 }
    let q2 :=
      if q1.head = q1.rightMargin then
        let qa := { q1 with head := leftMarginIndex }
        let qb := if qa.tail = qa.rightMargin then { qa with tail := leftMarginIndex } else qa
        { qb with rightMargin := qb.tail }
      else q1
    .ok (data, { q2 with full := false })

/-- Go `Peek()`: oldest entry without advancing `head`. -/
def BytesQueue.Peek (q : BytesQueue) : Except QErr (List Nat) :=
  match q.peek q.head with
  | .error e => .error e
  | .ok (data, _) => .ok data

/-- Go `Get(index)`: random-access read. -/
def BytesQueue.Get (q : BytesQueue) (index : Nat) : Except QErr (List Nat) :=
  match q.peek index with
  | .error e => .error e
  | .ok (data, _) => .ok data

/-- Go `CheckGet(index)`. -/
def BytesQueue.CheckGet (q : BytesQueue) (index : Nat) : Option QErr :=
  q.peekCheckErr index

/-- Go `Capacity()`. -/
def BytesQueue.Capacity (q : BytesQueue) : Nat := q.capacity

/-- Go `Len()`. -/
def BytesQueue.Len (q : BytesQueue) : Nat := q.count


/-! ## Cache shard (cache/bigcache/shard.go)

Concurrency is external to this model: the Go shard guards every state
mutation with one read-write lock, so each exported operation is modelled
as one atomic state transformer.  `clock.Epoch()` is passed in as the
`now` argument, the `onRemove` callback is recorded in the ghost
`removeLog` field, and the go map `hashmap` is an association list with
last-insert-wins lookup (`0` = absent, as in Go where a missing key reads
as the zero value). -/

/-- Go `RemoveReason` is `uint32`: `Expired = 1`, `NoSpace = 2`, `Deleted = 3`;
the zero value `0` is the default `Response.EntryStatus`. -/
def Expired : Nat := 1
def NoSpace : Nat := 2
def Deleted : Nat := 3

/-- Errors surfaced by the shard: `ErrEntryNotFound` ("entry not found"),
the string error "entry is bigger than max shard size", and pass-through
byte-queue errors. -/
inductive CacheErr where
  | entryNotFound
  | entryTooLarge
  | qerr (e : QErr)
deriving DecidableEq

/-- Shard statistics (`Stats`): hits, misses, delete hits, delete misses,
collisions. -/
structure Stats where
  hits : Nat
  misses : Nat
  delHits : Nat
  delMisses : Nat
  collisions : Nat
deriving DecidableEq

/-- Go map read `m[k]` with `uint64` values: missing keys read as `0`. -/
def mapGet (m : List (Nat × Nat)) (k : Nat) : Nat :=
  match m.find? (fun p => p.1 == k) with
  | some p => p.2
  | none => 0

/-- Go `delete(m, k)`. -/
def mapDelete (m : List (Nat × Nat)) (k : Nat) : List (Nat × Nat) :=
  m.filter (fun p => p.1 != k)

/-- Go map write `m[k] = v`. -/
def mapInsert (m : List (Nat × Nat)) (k v : Nat) : List (Nat × Nat) :=
  (k, v) :: mapDelete m k

/-- Go `m[k]++`. -/
def mapIncr (m : List (Nat × Nat)) (k : Nat) : List (Nat × Nat) :=
  mapInsert m k (mapGet m k + 1)

/-- Go `cacheShard` (logger, lock and `isVerbose` omitted: logging is a pure
side channel and the lock serializes the operations modelled here;
`removeLog` is a ghost trace of `onRemove(wrappedEntry, reason)` calls). -/
structure CacheShard where
  hashmap : List (Nat × Nat)
  entries : BytesQueue
  entryBuffer : List Nat
  removeLog : List (List Nat × Nat)
  statsEnabled : Bool
  stats : Stats
  hashmapStats : List (Nat × Nat)
  cleanEnabled : Bool
  lifeWindow : Nat
deriving DecidableEq

/-- The configuration values the shard code reads; `initialShardSize` and
`maximumShardSizeInBytes` stand for the results of the corresponding
`Config` methods (their definitions live outside the shard sources). -/
structure Config where
  initialShardSize : Nat
  maxEntrySize : Nat
  maximumShardSizeInBytes : Nat
  statsEnabled : Bool
  cleanEnabled : Bool
  lifeWindowSeconds : Nat

def CacheShard.hit (s : CacheShard) (key : Nat) : CacheShard :=
  let s1 := { s with stats := { s.stats with hits := s.stats.hits + 1 } }
  if s1.statsEnabled then { s1 with hashmapStats := mapIncr s1.hashmapStats key } else s1

def CacheShard.miss (s : CacheShard) : CacheShard :=
  { s with stats := { s.stats with misses := s.stats.misses + 1 } }

def CacheShard.delhit (s : CacheShard) : CacheShard :=
  { s with stats := { s.stats with delHits := s.stats.delHits + 1 } }

def CacheShard.delmiss (s : CacheShard) : CacheShard :=
  { s with stats := { s.stats with delMisses := s.stats.delMisses + 1 } }

def CacheShard.collision (s : CacheShard) : CacheShard :=
  { s with stats := { s.stats with collisions := s.stats.collisions + 1 } }

/-- Go `isExpired(oldestEntry, currentTimestamp)`: the `currentTimestamp <=
oldestTimestamp` guard keeps the unsigned subtraction from wrapping. -/
def CacheShard.isExpired (s : CacheShard) (oldestEntry : List Nat) (currentTimestamp : Nat) : Bool :=
  if currentTimestamp ≤ readTimestampFromEntry oldestEntry then false
  else currentTimestamp - readTimestampFromEntry oldestEntry > s.lifeWindow

/-- Go `getWrappedEntry(hashedKey)`. -/
def CacheShard.getWrappedEntry (s : CacheShard) (hashedKey : Nat) :
    CacheShard × Except CacheErr (List Nat) :=
  let itemIndex := mapGet s.hashmap hashedKey
  if itemIndex = 0 then (s.miss, .error CacheErr.entryNotFound)
  else
    match s.entries.Get itemIndex with
    | .error e => (s.miss, .error (CacheErr.qerr e))
    | .ok wrappedEntry => (s, .ok wrappedEntry)

/-- Go `get(key, hashedKey)`: hashmap lookup, then key comparison (collision
check), then value extraction. -/
def CacheShard.get (s : CacheShard) (key : List Nat) (hashedKey : Nat) :
    CacheShard × Except CacheErr (List Nat) :=
  match s.getWrappedEntry hashedKey with
  | (s1, .error e) => (s1, .error e)
  | (s1, .ok wrappedEntry) =>
    if readKeyFromEntry wrappedEntry ≠ key then
      (s1.collision, .error CacheErr.entryNotFound)
    else
      (s1.hit hashedKey, .ok (readEntry wrappedEntry))

/-- Go `getWithInfo(key, hashedKey)` at time `now`: like `get` but also
reports `EntryStatus = Expired` (without evicting) when the entry's age
exceeds the life window. -/
def CacheShard.getWithInfo (s : CacheShard) (now : Nat) (key : List Nat) (hashedKey : Nat) :
    CacheShard × Except CacheErr (List Nat × Nat) :=
  match s.getWrappedEntry hashedKey with
  | (s1, .error e) => (s1, .error e)
  | (s1, .ok wrappedEntry) =>
    if readKeyFromEntry wrappedEntry ≠ key then
      (s1.collision, .error CacheErr.entryNotFound)
    else
      let entry := readEntry wrappedEntry
      let status := if s1.isExpired wrappedEntry now then Expired else 0
      (s1.hit hashedKey, .ok (entry, status))

/-- Go `removeOldestEntry(reason)`: pop the oldest block; a zero hash field
marks an already-tombstoned block, which is skipped (no hashmap deletion,
no callback). -/
def CacheShard.removeOldestEntry (s : CacheShard) (reason : Nat) : CacheShard × Option QErr :=
  match s.entries.Pop with
  | .error e => (s, some e)
  | .ok (oldest, q) =>
    let hash := readHashFromEntry oldest
    if hash = 0 then ({ s with entries := q }, none)
    else
      let s1 :=
        { s with
          entries := q
          hashmap := mapDelete s.hashmap hash
          removeLog := s.removeLog ++ [(oldest, reason)] }
      let s2 := if s1.statsEnabled then { s1 with hashmapStats := mapDelete s1.hashmapStats hash } else s1
      (s2, none)

/-- Go `onEvict(oldestEntry, currentTimestamp, s.removeOldestEntry)` as used
by `set`/`cleanUp`: evict with reason `Expired` when expired. -/
def CacheShard.onEvictOldest (s : CacheShard) (oldestEntry : List Nat) (currentTimestamp : Nat) :
    CacheShard × Bool :=
  if s.isExpired oldestEntry currentTimestamp then
    match s.removeOldestEntry Expired with
    | (s1, none) => (s1, true)
    | (s1, some _) => (s1, false)
  else (s, false)

/-- In-queue effect of `resetHashFromEntry(previousEntry)` where
`previousEntry` is the slice `array[index+n : index+blockSize]` returned
by `Get(index)`: zero the 8 hash bytes at slice offset 8. -/
def BytesQueue.resetHashAtIdx (q : BytesQueue) (index : Nat) : BytesQueue :=
  let n := (uvarint (q.array.drop index)).2
  { q with array := writeAt q.array (index + n + 8) (leBytes 8 0) }

/-- The retry loop of `set`/`addNewWithoutLock`/`setWrappedEntryWithoutLock`:
push, and on failure evict the oldest entry (reason `NoSpace`) and retry;
when eviction itself fails, return the "entry is bigger than max shard
size" error.  Structural fuel replaces the Go `for`: each successful
eviction pops one block, so `entries.count + 1` fuel always suffices
(`setLoopFuel_succ_of_lt` below); the fuel-exhausted value is never
reached from the call sites. -/
def CacheShard.setLoopFuel : Nat → CacheShard → List Nat → Nat → CacheShard × Option CacheErr
  | 0, s, _, _ => (s, some CacheErr.entryTooLarge)
  | fuel + 1, s, w, hashedKey =>
    match s.entries.Push w with
    | (q, index, none) =>
      ({ s with entries := q, hashmap := mapInsert s.hashmap hashedKey index.toNat }, none)
    | (_, _, some _) =>
      match s.removeOldestEntry NoSpace with
      | (s1, none) => CacheShard.setLoopFuel fuel s1 w hashedKey
      | (s1, some _) => (s1, some CacheErr.entryTooLarge)

/-- The part of `set(key, hashedKey, entry)` before the push loop:
tombstone and unlink a previous entry under the same hash, and (when
periodic cleanup is disabled) opportunistically evict an expired oldest
entry. -/
def CacheShard.prepareSet (s : CacheShard) (now : Nat) (hashedKey : Nat) : CacheShard :=
  let s1 :=
    let previousIndex := mapGet s.hashmap hashedKey
    if previousIndex ≠ 0 then
      match s.entries.Get previousIndex with
      | .ok _ =>
        { s with
          entries := s.entries.resetHashAtIdx previousIndex
          hashmap := mapDelete s.hashmap hashedKey }
      | .error _ => s
    else s
  if ¬ s1.cleanEnabled then
    match s1.entries.Peek with
    | .ok oldestEntry => (s1.onEvictOldest oldestEntry now).1
    | .error _ => s1
  else s1

/-- Go `set(key, hashedKey, entry)` at time `now`. -/
def CacheShard.set (s : CacheShard) (now : Nat) (key : List Nat) (hashedKey : Nat)
    (entry : List Nat) : CacheShard × Option CacheErr :=
  let s1 := s.prepareSet now hashedKey
  let w := wrapEntry now hashedKey key entry
  CacheShard.setLoopFuel (s1.entries.count + 1) s1 w hashedKey

/-- Go `cleanUp(currentTimestamp)`: evict expired oldest entries until the
first non-expired or unreadable one.  Fuel as in `setLoopFuel`. -/
def CacheShard.cleanUpFuel : Nat → CacheShard → Nat → CacheShard
  | 0, s, _ => s
  | fuel + 1, s, currentTimestamp =>
    match s.entries.Peek with
    | .error _ => s
    | .ok oldestEntry =>
      match s.onEvictOldest oldestEntry currentTimestamp with
      | (s1, true) => CacheShard.cleanUpFuel fuel s1 currentTimestamp
      | (s1, false) => s1

def CacheShard.cleanUp (s : CacheShard) (currentTimestamp : Nat) : CacheShard :=
  CacheShard.cleanUpFuel (s.entries.count + 1) s currentTimestamp

/-- Go `reset(config)`: fresh hashmap and entry buffer, `entries.Reset()`
(note: the queue keeps its current arena and capacity). -/
def CacheShard.reset (s : CacheShard) (config : Config) : CacheShard :=
  { s with
    hashmap := []
    entryBuffer := List.replicate (config.maxEntrySize + headersSizeInBytes) 0
    entries := s.entries.Reset }

/-- Go `len()`: number of hashmap entries. -/
def CacheShard.len (s : CacheShard) : Nat := s.hashmap.length

/-- Go `capacity()`: `entries.Capacity()`. -/
def CacheShard.capacity (s : CacheShard) : Nat := s.entries.Capacity

/-- Go `initNewShard(config, callback, clock)`. -/
def initNewShard (config : Config) : CacheShard :=
  let bytesQueueInitialCapacity0 := config.initialShardSize * config.maxEntrySize
  let bytesQueueInitialCapacity :=
    if 0 < config.maximumShardSizeInBytes ∧
        config.maximumShardSizeInBytes < bytesQueueInitialCapacity0 then
      config.maximumShardSizeInBytes
    else bytesQueueInitialCapacity0
  { hashmap := []
    entries := NewBytesQueue bytesQueueInitialCapacity config.maximumShardSizeInBytes
    entryBuffer := List.replicate (config.maxEntrySize + headersSizeInBytes) 0
    removeLog := []
    statsEnabled := config.statsEnabled
    stats := { hits := 0, misses := 0, delHits := 0, delMisses := 0, collisions := 0 }
    hashmapStats := []
    cleanEnabled := config.cleanEnabled
    lifeWindow := config.lifeWindowSeconds }

/-- The `set` eviction chain: `EvictsTo w s s1` when the loop state can go
from `s` to `s1` by steps in which the push of `w` fails and the
oldest-entry eviction (reason `NoSpace`) succeeds. -/
inductive EvictsTo (w : List Nat) : CacheShard → CacheShard → Prop where
  | refl (s : CacheShard) : EvictsTo w s s
  | step (s s1 s2 : CacheShard) :
      (s.entries.Push w).2.2 ≠ none →
      s.removeOldestEntry NoSpace = (s1, none) →
      EvictsTo w s1 s2 →
      EvictsTo w s s2

/-! ## Concrete fixtures used by witnesses -/

def cfgA : Config :=
  { initialShardSize := 1
    maxEntrySize := 30
    maximumShardSizeInBytes := 0
    statsEnabled := false
    cleanEnabled := true
    lifeWindowSeconds := 2 }

def shardA : CacheShard := initNewShard cfgA

def cfgB : Config :=
  { initialShardSize := 1
    maxEntrySize := 1
    maximumShardSizeInBytes := 0
    statsEnabled := false
    cleanEnabled := false
    lifeWindowSeconds := 5 }

def shardB : CacheShard := initNewShard cfgB

/-- C4 trace: two pushes, a pop, a wrapped third push.  The resulting state
has entries both before `head` (at the left margin) and at `[head,
rightMargin)`. -/
def qTrace0 : BytesQueue := NewBytesQueue 11 0
def qTrace1 : BytesQueue := (qTrace0.Push [1, 2, 3]).1
def qTrace2 : BytesQueue := (qTrace1.Push [4, 5, 6]).1
def qTrace3 : BytesQueue :=
  match qTrace2.Pop with
  | .ok (_, q) => q
  | .error _ => qTrace2
def qTrace4 : BytesQueue := (qTrace3.Push [7, 8, 9]).1

/-- Decidable equality for `Except` results (used to evaluate concrete
queue and shard operations in witnesses). -/
instance {α β : Type} [DecidableEq α] [DecidableEq β] : DecidableEq (Except α β) := fun x y =>
  match x, y with
  | .ok a, .ok b =>
    if h : a = b then .isTrue (congrArg Except.ok h)
    else .isFalse (fun hh => h (Except.ok.inj hh))
  | .error a, .error b =>
    if h : a = b then .isTrue (congrArg Except.error h)
    else .isFalse (fun hh => h (Except.error.inj hh))
  | .ok _, .error _ => .isFalse (fun hh => Except.noConfusion hh)
  | .error _, .ok _ => .isFalse (fun hh => Except.noConfusion hh)

/-- C7/C8 fixtures: a shard holding key `[97]` under hash 5, then an
overwrite of the same hash (which tombstones the first frame in place). -/
def shardCollide : CacheShard := (CacheShard.set shardA 50 [97] 5 [49]).1
def shardOverwrite : CacheShard := (CacheShard.set shardCollide 60 [97] 5 [50]).1
def qAfterTombstonePop : BytesQueue :=
  match shardOverwrite.entries.Pop with
  | .ok (_, q) => q
  | .error _ => shardOverwrite.entries
def qAfterLivePop : BytesQueue :=
  match shardCollide.entries.Pop with
  | .ok (_, q) => q
  | .error _ => shardCollide.entries

/-- C9 fixture: one oversized set forces the 1-byte arena of `shardB` to
grow. -/
def shardGrown : CacheShard := (CacheShard.set shardB 100 [107] 3 [42]).1

-- THEOREMS-SECTION




theorem leBytes_length (k x : Nat) : (leBytes k x).length = k := by
  induction k generalizing x with
  | zero => rfl
  | succ k ih => simp [leBytes, ih]

theorem readLE_leBytes (k x : Nat) (rest : List Nat) :
    readLE k (leBytes k x ++ rest) = x % 256 ^ k := by
  induction k generalizing x rest with
  | zero => simp [readLE, Nat.mod_one]
  | succ k ih =>
    simp only [leBytes, readLE, List.cons_append, byteAt, List.getD_cons_zero,
      List.drop_one, List.tail_cons, ih]
    rw [pow_succ, mul_comm (256 ^ k) 256, Nat.mod_mul]

theorem wrapEntry_drop16 (t h : Nat) (key entry : List Nat) :
    (wrapEntry t h key entry).drop 16 = leBytes 2 key.length ++ key ++ entry := by
  have h8 := leBytes_length 8 t
  have h8' := leBytes_length 8 h
  simp [wrapEntry, List.drop_append_eq_append_drop, h8, h8']

theorem readTimestampFromEntry_wrap (t h : Nat) (key entry : List Nat) :
    readTimestampFromEntry (wrapEntry t h key entry) = t % 2 ^ 64 := by
  have : (2 : Nat) ^ 64 = 256 ^ 8 := by norm_num
  rw [this, readTimestampFromEntry, wrapEntry]
  simp only [List.append_assoc]
  rw [readLE_leBytes]

theorem readHashFromEntry_wrap (t h : Nat) (key entry : List Nat) :
    readHashFromEntry (wrapEntry t h key entry) = h % 2 ^ 64 := by
  have h2 : (2 : Nat) ^ 64 = 256 ^ 8 := by norm_num
  have h8 := leBytes_length 8 t
  rw [readHashFromEntry, wrapEntry]
  rw [List.drop_append_eq_append_drop]
  simp [h8, List.append_assoc, readLE_leBytes, h2]

theorem wrapEntry_drop18 (t h : Nat) (key entry : List Nat) :
    (wrapEntry t h key entry).drop 18 = key ++ entry := by
  have h8 := leBytes_length 8 t
  have h8' := leBytes_length 8 h
  have h2 := leBytes_length 2 key.length
  have e1 : (leBytes 8 t).drop 18 = [] := List.drop_eq_nil_of_le (by omega)
  have e2 : (leBytes 8 h).drop 10 = [] := List.drop_eq_nil_of_le (by omega)
  simp [wrapEntry, List.drop_append_eq_append_drop, h8, h8', h2, e1, e2]

theorem readLE2_wrap16 (t h : Nat) (key entry : List Nat) :
    readLE 2 ((wrapEntry t h key entry).drop 16) = key.length % 65536 := by
  rw [wrapEntry_drop16, List.append_assoc, readLE_leBytes]
  norm_num

theorem readKeyFromEntry_wrap (t h : Nat) (key entry : List Nat) :
    readKeyFromEntry (wrapEntry t h key entry) =
      (key ++ entry).take (key.length % 65536) := by
  rw [readKeyFromEntry, readLE2_wrap16, wrapEntry_drop18]

theorem readKeyFromEntry_wrap_short (t h : Nat) (key entry : List Nat)
    (hk : key.length < 65536) :
    readKeyFromEntry (wrapEntry t h key entry) = key := by
  rw [readKeyFromEntry_wrap, Nat.mod_eq_of_lt hk, List.take_append_of_le_length le_rfl,
    List.take_length]

theorem readEntry_wrap (t h : Nat) (key entry : List Nat)
    (hk : 18 + key.length < 65536) :
    readEntry (wrapEntry t h key entry) = entry := by
  have hk' : key.length < 65536 := by omega
  have hh : headersSizeInBytes = 18 := rfl
  rw [readEntry, readLE2_wrap16, Nat.mod_eq_of_lt hk', hh, Nat.mod_eq_of_lt hk,
    ← List.drop_drop, wrapEntry_drop18]
  simp [List.drop_left]



/-- Claim C1 (amended): decoding the frame produced by
`wrapEntry(timestamp, hash, key, value)` recovers the timestamp, hash, key
and value, for every `uint64` timestamp and hash and every key shorter
than 65518 bytes (the stored key length is a 2-byte field, and
`readEntry`'s offset `18 + length` is computed in 16-bit arithmetic). -/
theorem c1_roundtrip (t h : Nat) (key entry : List Nat)
    (ht : t < 2 ^ 64) (hh : h < 2 ^ 64) (hk : key.length < 65518) :
    readTimestampFromEntry (wrapEntry t h key entry) = t ∧
    readHashFromEntry (wrapEntry t h key entry) = h ∧
    readKeyFromEntry (wrapEntry t h key entry) = key ∧
    readEntry (wrapEntry t h key entry) = entry := by
  refine ⟨?_, ?_, ?_, ?_⟩
  · rw [readTimestampFromEntry_wrap, Nat.mod_eq_of_lt ht]
  · rw [readHashFromEntry_wrap, Nat.mod_eq_of_lt hh]
  · exact readKeyFromEntry_wrap_short t h key entry (by omega)
  · exact readEntry_wrap t h key entry (by omega)

/-- Witness for `c1_roundtrip` at a concrete frame. -/
theorem c1_roundtrip_witness :
    readTimestampFromEntry (wrapEntry 5 7 [97, 98] [1, 2, 3]) = 5 ∧
    readHashFromEntry (wrapEntry 5 7 [97, 98] [1, 2, 3]) = 7 ∧
    readKeyFromEntry (wrapEntry 5 7 [97, 98] [1, 2, 3]) = [97, 98] ∧
    readEntry (wrapEntry 5 7 [97, 98] [1, 2, 3]) = [1, 2, 3] :=
  c1_roundtrip 5 7 [97, 98] [1, 2, 3] (by norm_num) (by norm_num) (by decide)

/-- Claim C1 is false as stated for every key and value: a key of 65536
bytes stores key length `0` in the 2-byte field, so `readKeyFromEntry`
returns the empty key, not the original one. -/
theorem c1_counterexample :
    readKeyFromEntry (wrapEntry 0 0 (List.replicate 65536 97) []) ≠
      List.replicate 65536 97 := by
  rw [readKeyFromEntry_wrap]
  intro hEq
  have hl := congrArg List.length hEq
  rw [List.length_take, List.length_append, List.length_replicate] at hl
  simp only [List.length_nil] at hl
  norm_num at hl

/-- Claim C10: `isExpired` returns true exactly when the current timestamp
is strictly past the stored one and the age strictly exceeds `lifeWindow`;
age exactly `lifeWindow` is not expired, and a stored timestamp at or
after the current time is never expired (the guard prevents the unsigned
subtraction from wrapping). -/
theorem c10_isExpired (s : CacheShard) (entry : List Nat) (currentTimestamp : Nat) :
    (s.isExpired entry currentTimestamp = true ↔
      (readTimestampFromEntry entry < currentTimestamp ∧
        s.lifeWindow < currentTimestamp - readTimestampFromEntry entry)) ∧
    (currentTimestamp - readTimestampFromEntry entry = s.lifeWindow →
      s.isExpired entry currentTimestamp = false) ∧
    (currentTimestamp ≤ readTimestampFromEntry entry →
      s.isExpired entry currentTimestamp = false) := by
  refine ⟨?_, ?_, ?_⟩ <;>
    · simp only [CacheShard.isExpired]
      split <;> simp <;> omega

/-- Witness for `c10_isExpired`: a frame whose age is exactly the life
window is not expired. -/
theorem c10_isExpired_witness :
    shardA.isExpired (wrapEntry 20 5 [97] [49]) 22 = false :=
  (c10_isExpired shardA (wrapEntry 20 5 [97] [49]) 22).2.1 (by decide)


/-- Claim C4 (amended): `Pop` on a readable queue returns the block at
`head`, advances `head` past it, decrements `count` and clears `full`;
when the advanced `head` reaches `rightMargin`, `head` resets to the left
margin and `rightMargin` is pulled back to `tail`, but `tail` itself
resets to the left margin only when it already sits at `rightMargin`
(queue drained); otherwise `tail` is unchanged. -/
theorem c4_pop_spec (q : BytesQueue) (data : List Nat) (q1 : BytesQueue)
    (hpop : q.Pop = .ok (data, q1)) :
    data = (q.array.drop (q.head + (uvarint (q.array.drop q.head)).2)).take
      ((uvarint (q.array.drop q.head)).1 - (uvarint (q.array.drop q.head)).2) ∧
    q1.count = q.count - 1 ∧
    q1.full = false ∧
    q1.array = q.array ∧
    (q.head + (uvarint (q.array.drop q.head)).1 = q.rightMargin →
      q1.head = leftMarginIndex ∧ q1.rightMargin = q1.tail ∧
      (q.tail = q.rightMargin → q1.tail = leftMarginIndex) ∧
      (q.tail ≠ q.rightMargin → q1.tail = q.tail)) ∧
    (q.head + (uvarint (q.array.drop q.head)).1 ≠ q.rightMargin →
      q1.head = q.head + (uvarint (q.array.drop q.head)).1 ∧
      q1.tail = q.tail ∧ q1.rightMargin = q.rightMargin) := by
  have hc : q.peekCheckErr q.head = none := by
    cases hcc : q.peekCheckErr q.head with
    | none => rfl
    | some e =>
      simp only [BytesQueue.Pop, BytesQueue.peek, hcc] at hpop
      exact Except.noConfusion hpop
  simp only [BytesQueue.Pop, BytesQueue.peek, hc, Except.ok.injEq, Prod.mk.injEq] at hpop
  obtain ⟨hdata, hq1⟩ := hpop
  subst hq1
  refine ⟨hdata.symm, ?_⟩
  by_cases hm : q.head + (uvarint (q.array.drop q.head)).1 = q.rightMargin
  · by_cases ht : q.tail = q.rightMargin <;>
      simp_all [leftMarginIndex]
  · simp_all [leftMarginIndex]

/-- Witness for `c4_pop_spec` at a concrete pop. -/
theorem c4_pop_spec_witness :
    [1, 2, 3] = (qTrace2.array.drop (qTrace2.head + (uvarint (qTrace2.array.drop qTrace2.head)).2)).take
      ((uvarint (qTrace2.array.drop qTrace2.head)).1 - (uvarint (qTrace2.array.drop qTrace2.head)).2) ∧
    qTrace3.count = qTrace2.count - 1 ∧
    qTrace3.full = false ∧
    qTrace3.array = qTrace2.array ∧
    (qTrace2.head + (uvarint (qTrace2.array.drop qTrace2.head)).1 = qTrace2.rightMargin →
      qTrace3.head = leftMarginIndex ∧ qTrace3.rightMargin = qTrace3.tail ∧
      (qTrace2.tail = qTrace2.rightMargin → qTrace3.tail = leftMarginIndex) ∧
      (qTrace2.tail ≠ qTrace2.rightMargin → qTrace3.tail = qTrace2.tail)) ∧
    (qTrace2.head + (uvarint (qTrace2.array.drop qTrace2.head)).1 ≠ qTrace2.rightMargin →
      qTrace3.head = qTrace2.head + (uvarint (qTrace2.array.drop qTrace2.head)).1 ∧
      qTrace3.tail = qTrace2.tail ∧ qTrace3.rightMargin = qTrace2.rightMargin) :=
  c4_pop_spec qTrace2 [1, 2, 3] qTrace3 (by decide)

/-- Claim C4 as stated is false: in `qTrace4` the oldest block ends exactly
at `rightMargin` while younger blocks sit before `head`; popping resets
`head` to the left margin but leaves `tail` at 5, whereas the claim
requires both `head` and `tail` to reset to offset 1. -/
theorem c4_counterexample :
    qTrace4.head + (uvarint (qTrace4.array.drop qTrace4.head)).1 = qTrace4.rightMargin ∧
    qTrace4.Pop.toOption.map (fun p => (p.2.head, p.2.tail)) = some (1, 5) := by
  decide

/-- Claim C5: `Push` tries after `tail` first, then before `head` (moving
`tail` to the left margin), and otherwise grows; it fails exactly when
neither in-place insertion fits and growth is disallowed or insufficient
(`maxCapacity > 0` and `capacity + needed >= maxCapacity`); in particular
with `maxCapacity = 0` it never returns the full-queue error. -/
theorem c5_push (q : BytesQueue) (entry : List Nat) :
    (q.maxCapacity = 0 → (q.Push entry).2.2 = none) ∧
    ((q.Push entry).2.2 ≠ none ↔
      (q.canInsertAfterTail (getNeededSize entry.length) = false ∧
       q.canInsertBeforeHead (getNeededSize entry.length) = false ∧
       0 < q.maxCapacity ∧ q.maxCapacity ≤ q.capacity + getNeededSize entry.length)) ∧
    (q.canInsertAfterTail (getNeededSize entry.length) = true →
      q.Push entry = (q.pushData entry (getNeededSize entry.length), (q.tail : Int), none)) ∧
    (q.canInsertAfterTail (getNeededSize entry.length) = false →
      q.canInsertBeforeHead (getNeededSize entry.length) = true →
      q.Push entry =
        (({ q with tail := leftMarginIndex }).pushData entry (getNeededSize entry.length),
          (leftMarginIndex : Int), none)) := by
  simp only [BytesQueue.Push]
  split
  · rename_i hAfter
    simp [hAfter]
  · rename_i hAfter
    split
    · rename_i hBefore
      simp at hAfter
      simp [hAfter, hBefore]
    · rename_i hBefore
      split
      · rename_i hFull
        simp at hAfter hBefore
        simp [hAfter, hBefore]
        omega
      · rename_i hFull
        simp at hAfter hBefore hFull
        simp [hAfter, hBefore]
        omega

/-- Witness for `c5_push`: growth-unlimited push never fails. -/
theorem c5_push_witness : ((NewBytesQueue 4 0).Push [1, 2, 3]).2.2 = none :=
  (c5_push (NewBytesQueue 4 0) [1, 2, 3]).1 rfl

/-- Claim C6: with the `full` flag clear (there is a free gap at all) and a
valid `head` (at or past the left margin), insertion before `head` — and
likewise insertion after `tail` into the wrapped gap between `tail` and
`head` — is permitted exactly when the gap equals `need` or is at least
`need + 17` (`minimumHeaderSize`); a gap strictly in between is
rejected. -/
theorem c6_gap_rule (q : BytesQueue) (need : Nat)
    (hfull : q.full = false) (_hhead : leftMarginIndex ≤ q.head) :
    ((q.canInsertBeforeHead need = true ↔
      ((if q.head ≤ q.tail then q.head - leftMarginIndex else q.head - q.tail) = need ∨
        (if q.head ≤ q.tail then q.head - leftMarginIndex else q.head - q.tail) ≥
          need + minimumHeaderSize)) ∧
     (need < (if q.head ≤ q.tail then q.head - leftMarginIndex else q.head - q.tail) →
      (if q.head ≤ q.tail then q.head - leftMarginIndex else q.head - q.tail) <
        need + minimumHeaderSize →
      q.canInsertBeforeHead need = false)) ∧
    (q.tail < q.head →
      ((q.canInsertAfterTail need = true ↔
        (q.head - q.tail = need ∨ q.head - q.tail ≥ need + minimumHeaderSize)) ∧
       (need < q.head - q.tail → q.head - q.tail < need + minimumHeaderSize →
        q.canInsertAfterTail need = false))) := by
  simp only [BytesQueue.canInsertBeforeHead, BytesQueue.canInsertAfterTail, hfull,
    Bool.false_eq_true, if_false, leftMarginIndex, minimumHeaderSize]
  constructor
  · constructor
    · split <;> simp
    · intro h1 h2
      split at h1 <;> split <;> simp_all <;> omega
  · intro hlt
    have hns : ¬ q.head ≤ q.tail := by omega
    constructor
    · simp [hns]
    · intro h1 h2
      simp [hns]
      omega

/-- Witness for `c6_gap_rule`: in `qTrace3` (head 5, tail 9, not full) a
block needing exactly the 4 free bytes before `head` may go there. -/
theorem c6_gap_rule_witness :
    qTrace3.canInsertBeforeHead 4 = true ↔
      ((if qTrace3.head ≤ qTrace3.tail then qTrace3.head - leftMarginIndex
        else qTrace3.head - qTrace3.tail) = 4 ∨
        (if qTrace3.head ≤ qTrace3.tail then qTrace3.head - leftMarginIndex
        else qTrace3.head - qTrace3.tail) ≥ 4 + minimumHeaderSize) :=
  ((c6_gap_rule qTrace3 4 (by decide) (by decide)).1).1


/-- Zeroing the hash field with `resetHashFromEntry` makes
`readHashFromEntry` read 0 (for any frame long enough to hold the
16-byte timestamp+hash prefix). -/
theorem readHashFromEntry_resetHash (data : List Nat) (hlen : 16 ≤ data.length) :
    readHashFromEntry (resetHashFromEntry data) = 0 := by
  rw [resetHashFromEntry, writeAt, readHashFromEntry]
  have h2 : (leBytes 8 0).take (data.length - 8) = leBytes 8 0 :=
    List.take_of_length_le (by rw [leBytes_length]; omega)
  have h1 : (data.take 8).length = 8 := by rw [List.length_take]; omega
  rw [h2, List.append_assoc, List.drop_left' h1, readLE_leBytes]
  norm_num

/-- Claim C7: when the hashmap points at a stored frame whose embedded key
differs from the requested key, `get` returns the not-found error and
increments only the collisions counter; the stored value is not
returned. -/
theorem c7_collision (s : CacheShard) (key : List Nat) (hashedKey : Nat) (frame : List Nat)
    (hidx : mapGet s.hashmap hashedKey ≠ 0)
    (hget : s.entries.Get (mapGet s.hashmap hashedKey) = .ok frame)
    (hkey : readKeyFromEntry frame ≠ key) :
    s.get key hashedKey =
      ({ s with stats := { s.stats with collisions := s.stats.collisions + 1 } },
        .error CacheErr.entryNotFound) := by
  simp only [CacheShard.get, CacheShard.getWrappedEntry, if_neg hidx, hget,
    if_pos hkey, CacheShard.collision]

/-- Witness for `c7_collision`: key `[98]` collides with the stored key
`[97]` under hash 5. -/
theorem c7_collision_witness :
    shardCollide.get [98] 5 =
      ({ shardCollide with
          stats := { shardCollide.stats with collisions := shardCollide.stats.collisions + 1 } },
        .error CacheErr.entryNotFound) :=
  c7_collision shardCollide [98] 5 (wrapEntry 50 5 [97] [49]) (by decide) (by decide) (by decide)

/-- Claim C8: `removeOldestEntry` pops the oldest block; when its hash
field was zeroed (`resetHashFromEntry` tombstone) it deletes no hashmap
entry and invokes no removal callback, while a live (non-zero-hash) oldest
block gets both the hashmap deletion and the callback (and, with per-key
stats enabled, the stats deletion); zeroing a frame's hash field indeed
makes its stored hash read 0. -/
theorem c8_tombstone (s : CacheShard) (reason : Nat) (frame : List Nat) (q1 : BytesQueue)
    (hpop : s.entries.Pop = .ok (frame, q1)) :
    (readHashFromEntry frame = 0 →
      s.removeOldestEntry reason = ({ s with entries := q1 }, none)) ∧
    (readHashFromEntry frame ≠ 0 → s.statsEnabled = false →
      s.removeOldestEntry reason =
        ({ s with
            entries := q1
            hashmap := mapDelete s.hashmap (readHashFromEntry frame)
            removeLog := s.removeLog ++ [(frame, reason)] }, none)) ∧
    (readHashFromEntry frame ≠ 0 → s.statsEnabled = true →
      s.removeOldestEntry reason =
        ({ s with
            entries := q1
            hashmap := mapDelete s.hashmap (readHashFromEntry frame)
            removeLog := s.removeLog ++ [(frame, reason)]
            hashmapStats := mapDelete s.hashmapStats (readHashFromEntry frame) }, none)) ∧
    (∀ data : List Nat, 16 ≤ data.length → readHashFromEntry (resetHashFromEntry data) = 0) := by
  refine ⟨?_, ?_, ?_, fun data hlen => readHashFromEntry_resetHash data hlen⟩
  · intro hz
    simp [CacheShard.removeOldestEntry, hpop, hz]
  · intro hnz hstats
    simp [CacheShard.removeOldestEntry, hpop, hnz, hstats]
  · intro hnz hstats
    simp [CacheShard.removeOldestEntry, hpop, hnz, hstats]

/-- Witness for `c8_tombstone`: popping the tombstoned oldest frame of
`shardOverwrite` changes only the queue. -/
theorem c8_tombstone_witness :
    shardOverwrite.removeOldestEntry NoSpace =
      ({ shardOverwrite with entries := qAfterTombstonePop }, none) :=
  (c8_tombstone shardOverwrite NoSpace (wrapEntry 50 0 [97] [49]) qAfterTombstonePop
    (by decide)).1 (by decide)


/-- Lookup after insert returns the inserted offset. -/
theorem mapGet_mapInsert (m : List (Nat × Nat)) (k v : Nat) :
    mapGet (mapInsert m k v) k = v := by
  simp [mapGet, mapInsert, List.find?]

/-- A successful `Pop` implies the queue was nonempty and the popped state
has one block fewer. -/
theorem Pop_ok_count (q : BytesQueue) (data : List Nat) (q1 : BytesQueue)
    (hpop : q.Pop = .ok (data, q1)) : q.count ≠ 0 ∧ q1.count = q.count - 1 := by
  have hc : q.peekCheckErr q.head = none := by
    cases hcc : q.peekCheckErr q.head with
    | none => rfl
    | some e =>
      simp only [BytesQueue.Pop, BytesQueue.peek, hcc] at hpop
      exact Except.noConfusion hpop
  have hcnt : q.count ≠ 0 := by
    intro h0
    simp [BytesQueue.peekCheckErr, h0] at hc
  simp only [BytesQueue.Pop, BytesQueue.peek, hc, Except.ok.injEq, Prod.mk.injEq] at hpop
  obtain ⟨_, hq1⟩ := hpop
  subst hq1
  refine ⟨hcnt, ?_⟩
  by_cases hm : q.head + (uvarint (q.array.drop q.head)).1 = q.rightMargin
  · by_cases ht : q.tail = q.rightMargin <;> simp [hm, ht]
  · simp [hm]

/-- A successful eviction strictly decreases the queue block count. -/
theorem removeOldestEntry_ok_count (s : CacheShard) (r : Nat) (s1 : CacheShard)
    (h : s.removeOldestEntry r = (s1, none)) :
    s1.entries.count < s.entries.count := by
  unfold CacheShard.removeOldestEntry at h
  cases hp : s.entries.Pop with
  | error e =>
    rw [hp] at h
    simp at h
  | ok pr =>
    obtain ⟨oldest, q1⟩ := pr
    rw [hp] at h
    obtain ⟨hne, hq1cnt⟩ := Pop_ok_count s.entries oldest q1 hp
    have hs1 := congrArg Prod.fst h
    by_cases hz : readHashFromEntry oldest = 0
    · simp only [hz, if_pos rfl] at hs1
      rw [← hs1]
      simp
      omega
    · by_cases hst : s.statsEnabled = true <;>
        · simp only [hz, if_neg hz, hst] at hs1
          simp at hs1
          rw [← hs1]
          simp
          omega

/-- Full behaviour of the `set` retry loop, under sufficient fuel: a
successful run ends in a push whose offset the hashmap records, reached
from the start state by a chain of NoSpace evictions, each provoked by a
push failure; a failing run returns exactly the too-large error and ends
where a push failure meets an eviction failure — and conversely any
reachable push-failure/eviction-failure state forces that error. -/
theorem setLoopFuel_spec (fuel : Nat) (s : CacheShard) (w : List Nat) (hashedKey : Nat)
    (hfuel : s.entries.count < fuel) :
    ((CacheShard.setLoopFuel fuel s w hashedKey).2 = none →
      ∃ sfin idx q, EvictsTo w s sfin ∧ sfin.entries.Push w = (q, idx, none) ∧
        (CacheShard.setLoopFuel fuel s w hashedKey).1 =
          { sfin with entries := q, hashmap := mapInsert sfin.hashmap hashedKey idx.toNat } ∧
        mapGet (CacheShard.setLoopFuel fuel s w hashedKey).1.hashmap hashedKey = idx.toNat) ∧
    (∀ e, (CacheShard.setLoopFuel fuel s w hashedKey).2 = some e →
      e = CacheErr.entryTooLarge ∧
      ∃ sfin, EvictsTo w s sfin ∧ (sfin.entries.Push w).2.2 ≠ none ∧
        (sfin.removeOldestEntry NoSpace).2 ≠ none ∧
        (CacheShard.setLoopFuel fuel s w hashedKey).1 = (sfin.removeOldestEntry NoSpace).1) ∧
    (∀ sfin, EvictsTo w s sfin → (sfin.entries.Push w).2.2 ≠ none →
      (sfin.removeOldestEntry NoSpace).2 ≠ none →
      (CacheShard.setLoopFuel fuel s w hashedKey).2 = some CacheErr.entryTooLarge) := by
  induction fuel generalizing s with
  | zero => omega
  | succ fuel ih =>
    rcases hp : s.entries.Push w with ⟨q, idx, err⟩
    cases err with
    | none =>
      have hr : CacheShard.setLoopFuel (fuel + 1) s w hashedKey =
          ({ s with entries := q, hashmap := mapInsert s.hashmap hashedKey idx.toNat }, none) := by
        simp [CacheShard.setLoopFuel, hp]
      refine ⟨?_, ?_, ?_⟩
      · intro _
        exact ⟨s, idx, q, .refl s, hp, by rw [hr],
          by rw [hr]; exact mapGet_mapInsert s.hashmap hashedKey idx.toNat⟩
      · intro e he
        rw [hr] at he
        exact absurd he (by simp)
      · intro sfin hchain hpushfail _
        cases hchain with
        | refl =>
          rw [hp] at hpushfail
          exact absurd rfl hpushfail
        | step _ s1 _ hpf hrem hrest =>
          rw [hp] at hpf
          exact absurd rfl hpf
    | some perr =>
      rcases hrem : s.removeOldestEntry NoSpace with ⟨s1, rerr⟩
      cases rerr with
      | none =>
        have hr : CacheShard.setLoopFuel (fuel + 1) s w hashedKey =
            CacheShard.setLoopFuel fuel s1 w hashedKey := by
          simp [CacheShard.setLoopFuel, hp, hrem]
        have hlt : s1.entries.count < fuel := by
          have := removeOldestEntry_ok_count s NoSpace s1 hrem
          omega
        obtain ⟨ihS, ihE, ihC⟩ := ih s1 hlt
        refine ⟨?_, ?_, ?_⟩
        · intro hnone
          rw [hr] at hnone
          obtain ⟨sfin, idx2, q2, hchain, hpush2, hstate, hmap⟩ := ihS hnone
          exact ⟨sfin, idx2, q2, .step s s1 sfin (by rw [hp]; simp) hrem hchain, hpush2,
            by rw [hr]; exact hstate, by rw [hr]; exact hmap⟩
        · intro e he
          rw [hr] at he
          obtain ⟨heq, sfin, hchain, h1, h2, h3⟩ := ihE e he
          exact ⟨heq, sfin, .step s s1 sfin (by rw [hp]; simp) hrem hchain, h1, h2,
            by rw [hr]; exact h3⟩
        · intro sfin hchain h1 h2
          rw [hr]
          cases hchain with
          | refl =>
            rw [hrem] at h2
            exact absurd rfl h2
          | step _ s1x _ hpf hremx hrest =>
            rw [hrem] at hremx
            have hs1 : s1 = s1x := congrArg Prod.fst hremx
            subst hs1
            exact ihC sfin hrest h1 h2
      | some rerr =>
        have hr : CacheShard.setLoopFuel (fuel + 1) s w hashedKey =
            (s1, some CacheErr.entryTooLarge) := by
          simp [CacheShard.setLoopFuel, hp, hrem]
        refine ⟨?_, ?_, ?_⟩
        · intro hnone
          rw [hr] at hnone
          exact absurd hnone (by simp)
        · intro e he
          rw [hr] at he
          simp only [Option.some.injEq] at he
          subst he
          refine ⟨rfl, s, .refl s, by rw [hp]; simp, by rw [hrem]; simp, ?_⟩
          rw [hr, hrem]
        · intro sfin hchain h1 h2
          rw [hr]

/-- Claim C2: `set` either eventually succeeds — the new frame is pushed
and the hashmap points at its returned offset — or fails with exactly the
"entry is bigger than max shard size" error; every retry step in between
evicts the oldest entry with reason NoSpace after a push failure, and the
error is returned exactly when a state is reached where the push fails and
evicting the oldest entry fails too. -/
theorem c2_set (s : CacheShard) (now : Nat) (key : List Nat) (hashedKey : Nat)
    (entry : List Nat) :
    ((s.set now key hashedKey entry).2 = none →
      ∃ sfin idx q,
        EvictsTo (wrapEntry now hashedKey key entry) (s.prepareSet now hashedKey) sfin ∧
        sfin.entries.Push (wrapEntry now hashedKey key entry) = (q, idx, none) ∧
        (s.set now key hashedKey entry).1 =
          { sfin with entries := q, hashmap := mapInsert sfin.hashmap hashedKey idx.toNat } ∧
        mapGet (s.set now key hashedKey entry).1.hashmap hashedKey = idx.toNat) ∧
    (∀ e, (s.set now key hashedKey entry).2 = some e →
      e = CacheErr.entryTooLarge ∧
      ∃ sfin,
        EvictsTo (wrapEntry now hashedKey key entry) (s.prepareSet now hashedKey) sfin ∧
        (sfin.entries.Push (wrapEntry now hashedKey key entry)).2.2 ≠ none ∧
        (sfin.removeOldestEntry NoSpace).2 ≠ none ∧
        (s.set now key hashedKey entry).1 = (sfin.removeOldestEntry NoSpace).1) ∧
    (∀ sfin,
      EvictsTo (wrapEntry now hashedKey key entry) (s.prepareSet now hashedKey) sfin →
      (sfin.entries.Push (wrapEntry now hashedKey key entry)).2.2 ≠ none →
      (sfin.removeOldestEntry NoSpace).2 ≠ none →
      (s.set now key hashedKey entry).2 = some CacheErr.entryTooLarge) := by
  have h := setLoopFuel_spec ((s.prepareSet now hashedKey).entries.count + 1)
    (s.prepareSet now hashedKey) (wrapEntry now hashedKey key entry) hashedKey
    (Nat.lt_succ_self _)
  simpa only [CacheShard.set] using h

/-- Witness for `c2_set`: a successful set on the fixture shard. -/
theorem c2_set_witness :
    ∃ sfin idx q,
      EvictsTo (wrapEntry 50 5 [97] [49]) (shardA.prepareSet 50 5) sfin ∧
      sfin.entries.Push (wrapEntry 50 5 [97] [49]) = (q, idx, none) ∧
      (shardA.set 50 [97] 5 [49]).1 =
        { sfin with entries := q, hashmap := mapInsert sfin.hashmap 5 idx.toNat } ∧
      mapGet (shardA.set 50 [97] 5 [49]).1.hashmap 5 = idx.toNat :=
  (c2_set shardA 50 [97] 5 [49]).1 (by decide)


/-- Claim C9 (amended): after `reset(config)` the shard's `len()` is 0,
but its `capacity()` is whatever the queue's capacity was before the reset
(`BytesQueue.Reset` only resets indexes and keeps the arena); it equals
the freshly configured initial size only when the queue never grew. -/
theorem c9_reset (config : Config) (s : CacheShard) :
    (s.reset config).len = 0 ∧ (s.reset config).capacity = s.capacity := by
  simp [CacheShard.reset, CacheShard.len, CacheShard.capacity, BytesQueue.Reset,
    BytesQueue.Capacity]

/-- Claim C9 as stated is false: one `set` on the freshly configured
`shardB` (initial capacity 1) forces the arena to grow to 44 bytes, and
after `reset` the capacity stays 44 instead of returning to the configured
1. -/
theorem c9_counterexample :
    (shardGrown.reset cfgB).len = 0 ∧
    (shardGrown.reset cfgB).capacity = 44 ∧
    (initNewShard cfgB).capacity = 1 ∧
    (shardGrown.reset cfgB).capacity ≠ (initNewShard cfgB).capacity := by
  decide

/-- Pushing a 20-byte block into a fresh 30-byte queue: the block is
written at the left margin with a 1-byte header. -/
theorem pushFresh (w : List Nat) (hw : w.length = 20) :
    (NewBytesQueue 30 0).Push w =
      ({ full := false
         array := 0 :: 21 :: (w ++ List.replicate 8 0)
         capacity := 30
         maxCapacity := 0
         head := 1
         tail := 22
         count := 1
         rightMargin := 22 }, 1, none) := by
  have ht : w.take 20 = w := List.take_of_length_le (by omega)
  simp [BytesQueue.Push, BytesQueue.canInsertAfterTail, getNeededSize, hw,
    NewBytesQueue, leftMarginIndex, BytesQueue.pushData, putUvarint, putUvarintAux,
    BytesQueue.qcopy, writeAt, List.take_replicate, List.drop_replicate, ht,
    List.take_of_length_le, minimumHeaderSize]

/-- Reading index 1 of that queue returns the block payload. -/
theorem getFresh (w : List Nat) (hw : w.length = 20) :
    ({ full := false
       array := 0 :: 21 :: (w ++ List.replicate 8 0)
       capacity := 30
       maxCapacity := 0
       head := 1
       tail := 22
       count := 1
       rightMargin := 22 } : BytesQueue).Get 1 = .ok w := by
  have hlen : (0 :: 21 :: (w ++ List.replicate 8 0)).length = 30 := by
    simp [hw]
  simp [BytesQueue.Get, BytesQueue.peek, BytesQueue.peekCheckErr, hlen, uvarint,
    List.take_left' hw]

/-- The effect of a first `set` on the fixture shard `shardA`. -/
theorem setFreshA (t : Nat) :
    shardA.set t [97] 5 [49] =
      ({ shardA with
          entries :=
            { full := false
              array := 0 :: 21 :: (wrapEntry t 5 [97] [49] ++ List.replicate 8 0)
              capacity := 30
              maxCapacity := 0
              head := 1
              tail := 22
              count := 1
              rightMargin := 22 }
          hashmap := [(5, 1)] }, none) := by
  have hw : (wrapEntry t 5 [97] [49]).length = 20 := by
    simp [wrapEntry, leBytes_length]
  have hprep : shardA.prepareSet t 5 = shardA := rfl
  simp only [CacheShard.set, hprep]
  simp [CacheShard.setLoopFuel, pushFresh _ hw, mapInsert, mapDelete, shardA, initNewShard,
    cfgA]

/-- A found, key-matching `get` returns the frame's value. -/
theorem get_found (s : CacheShard) (key : List Nat) (hk : Nat) (frame : List Nat)
    (hidx : mapGet s.hashmap hk ≠ 0)
    (hget : s.entries.Get (mapGet s.hashmap hk) = .ok frame)
    (hkey : readKeyFromEntry frame = key) :
    (s.get key hk).2 = .ok (readEntry frame) := by
  simp [CacheShard.get, CacheShard.getWrappedEntry, if_neg hidx, hget, hkey]

/-- A found, key-matching `getWithInfo` returns the frame's value and an
`Expired` status exactly per `isExpired`. -/
theorem getWithInfo_found (s : CacheShard) (now : Nat) (key : List Nat) (hk : Nat)
    (frame : List Nat)
    (hidx : mapGet s.hashmap hk ≠ 0)
    (hget : s.entries.Get (mapGet s.hashmap hk) = .ok frame)
    (hkey : readKeyFromEntry frame = key) :
    (s.getWithInfo now key hk).2 =
      .ok (readEntry frame, if s.isExpired frame now then Expired else 0) := by
  simp [CacheShard.getWithInfo, CacheShard.getWrappedEntry, if_neg hidx, hget, hkey]

/-- Claim C3: with `lifeWindow = 2` seconds (`shardA`), an entry set at
time `t` is retrievable at `t + 1 = t + lifeWindow - 1` (by `get`, and by
`getWithInfo` with a non-`Expired` status), and at `t + 3 = t + lifeWindow
+ 1` the `getWithInfo` lookup returns it with status `Expired` (the lazy
expiry path of the spec's "EntryNotFound or Expired" alternative). -/
theorem c3_expiry (t : Nat) (ht : t + 3 < 2 ^ 64) :
    (shardA.set t [97] 5 [49]).2 = none ∧
    ((shardA.set t [97] 5 [49]).1.get [97] 5).2 = .ok [49] ∧
    ((shardA.set t [97] 5 [49]).1.getWithInfo (t + 1) [97] 5).2 = .ok ([49], 0) ∧
    ((shardA.set t [97] 5 [49]).1.getWithInfo (t + 3) [97] 5).2 = .ok ([49], Expired) := by
  have hw : (wrapEntry t 5 [97] [49]).length = 20 := by
    simp [wrapEntry, leBytes_length]
  have hkey : readKeyFromEntry (wrapEntry t 5 [97] [49]) = [97] :=
    readKeyFromEntry_wrap_short t 5 [97] [49] (by simp)
  have hval : readEntry (wrapEntry t 5 [97] [49]) = [49] :=
    readEntry_wrap t 5 [97] [49] (by simp)
  have hts : readTimestampFromEntry (wrapEntry t 5 [97] [49]) = t := by
    rw [readTimestampFromEntry_wrap, Nat.mod_eq_of_lt (by omega)]
  rw [setFreshA t]
  set s1 : CacheShard :=
    { shardA with
        entries :=
          { full := false
            array := 0 :: 21 :: (wrapEntry t 5 [97] [49] ++ List.replicate 8 0)
            capacity := 30
            maxCapacity := 0
            head := 1
            tail := 22
            count := 1
            rightMargin := 22 }
        hashmap := [(5, 1)] } with hs1
  have hmap1 : mapGet s1.hashmap 5 = 1 := by rw [hs1]; rfl
  have hidx : mapGet s1.hashmap 5 ≠ 0 := by rw [hmap1]; decide
  have hget : s1.entries.Get (mapGet s1.hashmap 5) = .ok (wrapEntry t 5 [97] [49]) := by
    rw [hmap1, hs1]
    exact getFresh (wrapEntry t 5 [97] [49]) hw
  have hlw : s1.lifeWindow = 2 := by rw [hs1]; rfl
  have hexp1 : s1.isExpired (wrapEntry t 5 [97] [49]) (t + 1) = false := by
    simp only [CacheShard.isExpired, hts]
    rw [hlw]
    have h1 : ¬ (t + 1 ≤ t) := by omega
    rw [if_neg h1]
    simp only [decide_eq_false_iff_not]
    omega
  have hexp3 : s1.isExpired (wrapEntry t 5 [97] [49]) (t + 3) = true := by
    simp only [CacheShard.isExpired, hts]
    rw [hlw]
    have h1 : ¬ (t + 3 ≤ t) := by omega
    rw [if_neg h1]
    simp only [decide_eq_true_eq]
    omega
  refine ⟨rfl, ?_, ?_, ?_⟩
  · rw [get_found s1 [97] 5 (wrapEntry t 5 [97] [49]) hidx hget hkey, hval]
  · rw [getWithInfo_found s1 (t + 1) [97] 5 (wrapEntry t 5 [97] [49]) hidx hget hkey,
      hval, hexp1]
    rfl
  · rw [getWithInfo_found s1 (t + 3) [97] 5 (wrapEntry t 5 [97] [49]) hidx hget hkey,
      hval, hexp3]
    rfl

/-- Witness for `c3_expiry` at `t = 1000`. -/
theorem c3_expiry_witness :
    (shardA.set 1000 [97] 5 [49]).2 = none ∧
    ((shardA.set 1000 [97] 5 [49]).1.get [97] 5).2 = .ok [49] ∧
    ((shardA.set 1000 [97] 5 [49]).1.getWithInfo 1001 [97] 5).2 = .ok ([49], 0) ∧
    ((shardA.set 1000 [97] 5 [49]).1.getWithInfo 1003 [97] 5).2 = .ok ([49], Expired) :=
  c3_expiry 1000 (by norm_num)

end Gokit
